import Mathlib

set_option maxRecDepth 8000

/-! Shallow embedding of the route data model, store operations and YAML codec of
`src/map_point_selector.py` (class `MapPointSelector`).

Latitude/longitude values are modelled as `Rat`: the code never does arithmetic on
them, it only stores them and tests Python truthiness (`x or y`), and a Python float
is falsy exactly when it equals `0.0`, which `Rat` mirrors (`NaN` inputs are outside
the model).  Python's insertion-ordered `dict` is modelled as an association list
whose assignment replaces in place when the key exists and appends otherwise, which
is exactly CPython's observable dict behaviour. -/

/-- One stored point tuple `(marker_id, lat, lng)`. -/
structure MarkerPoint where
  mid : Int
  lat : Rat
  lng : Rat
  deriving DecidableEq, Repr

/-- One route record `{'id': …, 'color': …, 'points': …}` of `self.routes`. -/
structure Route where
  id : Int
  color : String
  points : List MarkerPoint
  deriving DecidableEq, Repr

/-- A YAML point record; a field is `none` when the key is absent. -/
structure PointData where
  lat : Option Rat
  lon : Option Rat
  lng : Option Rat
  deriving DecidableEq, Repr

/-- A YAML route record `{id?, color?, points?, global_route?}`. -/
structure RouteData where
  id : Option Int
  color : Option String
  points : Option (List PointData)
  global_route : Option (List PointData)
  deriving DecidableEq, Repr

/-- A parsed YAML mapping at top level; a field is `none` when the key is absent. -/
structure YamlDoc where
  routes : Option (List RouteData)
  global_route : Option (List PointData)
  deriving DecidableEq, Repr

/-- Result of a successful `yaml.safe_load`: a mapping, `None`, or a number
(the shapes the claims need). -/
inductive YamlValue where
  | vnull : YamlValue
  | vnum : Int → YamlValue
  | vdoc : YamlDoc → YamlValue
  deriving DecidableEq, Repr

/-- How a `loadYamlContent` call terminates: normally, by printing
"Invalid YAML format", or by an uncaught `TypeError` from evaluating
`"routes" in data` on a non-container value. -/
inductive LoadOutcome where
  | ok : LoadOutcome
  | invalidFormat : LoadOutcome
  | typeError : LoadOutcome
  deriving DecidableEq, Repr

/-- The mutable state of `MapPointSelector` that the claims concern:
`self.routes` (insertion-ordered dict), `self.currentRouteId`,
`self.nextRouteId`, and the route combo box's item data in display order. -/
structure State where
  routes : List (Int × Route)
  currentRouteId : Int
  nextRouteId : Int
  comboData : List Int
  deriving DecidableEq, Repr

/-- `self.colors`. -/
def colors : List String := ["red", "blue", "green", "orange", "purple", "cyan", "magenta"]

/-- `self.colors[route_id % len(self.colors)]` (Python `%` on a positive
modulus is `Int.emod`; the default is never reached since `emod` is in range). -/
def colorFor (rid : Int) : String :=
  colors.getD (rid % (colors.length : Int)).toNat "red"

/-- Python `d[k]` / `d.get(k)` on the routes dict: first entry with the key. -/
def dictGet : List (Int × Route) → Int → Option Route
  | [], _ => none
  | e :: rest, k => if e.1 = k then some e.2 else dictGet rest k

/-- Python `k in d` on the routes dict. -/
def hasKey (l : List (Int × Route)) (k : Int) : Bool :=
  (dictGet l k).isSome

/-- Python `d[k] = v`: replace in place when the key exists, else append. -/
def dictInsert (l : List (Int × Route)) (k : Int) (v : Route) : List (Int × Route) :=
  if hasKey l k then l.map (fun e => if e.1 = k then (k, v) else e) else l ++ [(k, v)]

/-- Mutate `d[k]['points']` through `f` (no entry with key `k`: no change). -/
def updatePoints : List (Int × Route) → Int → (List MarkerPoint → List MarkerPoint) → List (Int × Route)
  | [], _, _ => []
  | e :: rest, k, f =>
    (if e.1 = k then (e.1, { e.2 with points := f e.2.points }) else e) :: updatePoints rest k f

/-- The construction-time state built in `__init__`: default route 0 with the
first palette color, `nextRouteId = 1`, one combo box item carrying id 0. -/
def initState : State :=
  { routes := [(0, { id := 0, color := "red", points := [] })],
    currentRouteId := 0, nextRouteId := 1, comboData := [0] }

/-- `self.routeComboBox.itemData(index)`: `None` when the index is out of range. -/
def comboGet : List Int → Nat → Option Int
  | [], _ => none
  | x :: _, 0 => some x
  | _ :: rest, n + 1 => comboGet rest n

/-- `itemData` with Qt's out-of-range behaviour for any integer index. -/
def itemData (s : State) (i : Int) : Option Int :=
  if 0 ≤ i then comboGet s.comboData i.toNat else none

/-- `changeRoute(index)`: translation of the slot body. -/
def changeRoute (s : State) (i : Int) : State :=
  match itemData s i with
  | some rid => { s with currentRouteId := rid }
  | none => s

/-- `changeRoute(index)` with an explicit exception channel: the body contains
no `raise` and no fallible operation, so every path returns `Except.ok`. -/
def changeRouteE (s : State) (i : Int) : Except String State :=
  match itemData s i with
  | some rid => Except.ok { s with currentRouteId := rid }
  | none => Except.ok s

/-- `newRoute()`; its `setCurrentIndex` call fires `changeRoute` on the newly
appended combo item, whose item data is the fresh route id. -/
def newRoute (s : State) : State :=
  let rid := s.nextRouteId
  { routes := dictInsert s.routes rid { id := rid, color := colorFor rid, points := [] },
    currentRouteId := rid,
    nextRouteId := rid + 1,
    comboData := s.comboData ++ [rid] }

/-- `onPointAdded(lat, lng, marker_id, route_id)`: an unknown `route_id` falls
back to `currentRouteId`; the event's `marker_id` is stored as given. -/
def onPointAdded (s : State) (lat lng : Rat) (mid rid : Int) : State :=
  let target := if hasKey s.routes rid then rid else s.currentRouteId
  { s with routes :=
      updatePoints s.routes target (fun pts => pts ++ [{ mid := mid, lat := lat, lng := lng }]) }

/-- The scan in `onMarkerMoved`: replace the coordinates of the first point
whose id matches, then `break`. -/
def updFirst (mid : Int) (lat lng : Rat) : List MarkerPoint → List MarkerPoint
  | [] => []
  | p :: rest =>
    if p.mid = mid then { mid := p.mid, lat := lat, lng := lng } :: rest
    else p :: updFirst mid lat lng rest

/-- `onMarkerMoved(lat, lng, marker_id, route_id)`. -/
def onMarkerMoved (s : State) (lat lng : Rat) (mid rid : Int) : State :=
  if hasKey s.routes rid then
    { s with routes := updatePoints s.routes rid (updFirst mid lat lng) }
  else s

/-- `clearCurrentRoute()` (the data-model part: `points.clear()` guarded by
`if currentRouteId in routes`, which the map-form absorbs). -/
def clearCurrentRoute (s : State) : State :=
  { s with routes := updatePoints s.routes s.currentRouteId (fun _ => []) }

/-- `clearAll()`: discard everything and rebuild the construction-time default. -/
def clearAll (_ : State) : State := initState

/-- Python `a or b` on optional floats: `None` and `0.0` are falsy. -/
def pyOr (a b : Option Rat) : Option Rat :=
  match a with
  | some v => if v = 0 then b else some v
  | none => b

/-- The point loop of `addRouteFromData`: `lat = point.get("lat")`,
`lng = point.get("lon") or point.get("lng")`; a point is kept only when both
resolve, and is stored with `marker_id = len(points-so-far)`. -/
def addPointsFromData : List PointData → List MarkerPoint → List MarkerPoint
  | [], acc => acc
  | p :: rest, acc =>
    match p.lat, pyOr p.lon p.lng with
    | some la, some ln =>
      addPointsFromData rest (acc ++ [{ mid := Int.ofNat acc.length, lat := la, lng := ln }])
    | _, _ => addPointsFromData rest acc

/-- `addRouteFromData(route_data)`: fresh id from the allocator (the record's
`id` field is never read), color from the record or the palette, then the
point loop. -/
def addRouteFromData (s : State) (rd : RouteData) : State :=
  let rid := s.nextRouteId
  let color := rd.color.getD (colorFor rid)
  let pts := rd.points.getD (rd.global_route.getD [])
  { s with
    routes := dictInsert s.routes rid
      { id := rid, color := color, points := addPointsFromData pts [] },
    nextRouteId := rid + 1,
    comboData := s.comboData ++ [rid] }

/-- `loadYamlContent` after a successful `yaml.safe_load`.  The `try` block
wraps only the parse, so the `"routes" in data` membership test on `None` or on
a number raises an uncaught `TypeError` before any mutation. -/
def loadYamlContent (s : State) (v : YamlValue) : State × LoadOutcome :=
  match v with
  | .vnull => (s, .typeError)
  | .vnum _ => (s, .typeError)
  | .vdoc d =>
    match d.routes with
    | some rs => (rs.foldl addRouteFromData s, .ok)
    | none =>
      match d.global_route with
      | some pts =>
        (addRouteFromData s
          { id := some s.nextRouteId, color := some (colorFor s.nextRouteId),
            points := some pts, global_route := none }, .ok)
      | none => (s, .invalidFormat)

/-- The document built by `saveYaml` (export writes `lon`, never `lng`),
iterating routes and points in stored order. -/
def saveYamlDoc (s : State) : YamlDoc :=
  { routes := some (s.routes.map (fun e =>
      { id := some e.1, color := some e.2.color,
        points := some (e.2.points.map (fun p =>
          { lat := some p.lat, lon := some p.lng, lng := none })),
        global_route := none })),
    global_route := none }

/-- The key sequence of the routes dict. -/
def routeKeys (s : State) : List Int := s.routes.map Prod.fst

/-- One store mutation, as triggered from the UI or the bridge. -/
inductive Step : State → State → Prop where
  | newR (s : State) : Step s (newRoute s)
  | change (s : State) (i : Int) : Step s (changeRoute s i)
  | ptAdded (s : State) (lat lng : Rat) (mid rid : Int) : Step s (onPointAdded s lat lng mid rid)
  | moved (s : State) (lat lng : Rat) (mid rid : Int) : Step s (onMarkerMoved s lat lng mid rid)
  | clearCur (s : State) : Step s (clearCurrentRoute s)
  | clearA (s : State) : Step s (clearAll s)
  | load (s : State) (v : YamlValue) : Step s (loadYamlContent s v).1

/-- States reachable from construction through store mutations. -/
inductive Reachable : State → Prop where
  | start : Reachable initState
  | step {s s' : State} : Reachable s → Step s s' → Reachable s'

/-- The data-model invariant: the active route exists, the allocator strictly
dominates every allocated id, every combo item names an existing route, and
route keys are pairwise distinct. -/
def StoreInv (s : State) : Prop :=
  hasKey s.routes s.currentRouteId = true
  ∧ (∀ k ∈ routeKeys s, k < s.nextRouteId)
  ∧ (∀ d ∈ s.comboData, hasKey s.routes d = true)
  ∧ (routeKeys s).Nodup

lemma dictGet_append_left {l₁ : List (Int × Route)} {k : Int} {v : Route}
    (l₂ : List (Int × Route)) (h : dictGet l₁ k = some v) :
    dictGet (l₁ ++ l₂) k = some v := by
  induction l₁ with
  | nil => simp [dictGet] at h
  | cons e rest ih =>
    by_cases hk : e.1 = k
    · simpa [dictGet, hk] using h
    · simp only [dictGet, hk, if_false] at h
      simp only [List.cons_append, dictGet, hk, if_false]
      exact ih h

lemma dictGet_append_none {l₁ : List (Int × Route)} {k : Int}
    (l₂ : List (Int × Route)) (h : dictGet l₁ k = none) :
    dictGet (l₁ ++ l₂) k = dictGet l₂ k := by
  induction l₁ with
  | nil => rfl
  | cons e rest ih =>
    by_cases hk : e.1 = k
    · simp [dictGet, hk] at h
    · simp only [dictGet, hk, if_false] at h
      simp only [List.cons_append, dictGet, hk, if_false]
      exact ih h

lemma dictGet_mem_keys {l : List (Int × Route)} {k : Int} {v : Route}
    (h : dictGet l k = some v) : k ∈ l.map Prod.fst := by
  induction l with
  | nil => simp [dictGet] at h
  | cons e rest ih =>
    by_cases hk : e.1 = k
    · simp [hk.symm]
    · simp only [dictGet, hk, if_false] at h
      simp [ih h]

lemma dictGet_of_not_mem {l : List (Int × Route)} {k : Int}
    (h : k ∉ l.map Prod.fst) : dictGet l k = none := by
  induction l with
  | nil => rfl
  | cons e rest ih =>
    simp only [List.map_cons, List.mem_cons] at h
    push_neg at h
    have he : ¬ e.1 = k := fun hh => h.1 hh.symm
    simp only [dictGet, he, if_false]
    exact ih h.2

lemma mem_keys_dictGet {l : List (Int × Route)} {k : Int}
    (h : k ∈ l.map Prod.fst) : (dictGet l k).isSome = true := by
  induction l with
  | nil => simp at h
  | cons e rest ih =>
    by_cases hk : e.1 = k
    · simp [dictGet, hk]
    · simp only [List.map_cons, List.mem_cons] at h
      rcases h with h | h
      · exact absurd h.symm hk
      · simp only [dictGet, hk, if_false]
        exact ih h

lemma hasKey_iff_mem {l : List (Int × Route)} {k : Int} :
    hasKey l k = true ↔ k ∈ l.map Prod.fst := by
  constructor
  · intro h
    obtain ⟨v, hv⟩ := Option.isSome_iff_exists.mp h
    exact dictGet_mem_keys hv
  · intro h
    exact mem_keys_dictGet h

lemma updatePoints_keys (l : List (Int × Route)) (k : Int)
    (f : List MarkerPoint → List MarkerPoint) :
    (updatePoints l k f).map Prod.fst = l.map Prod.fst := by
  induction l with
  | nil => rfl
  | cons e rest ih =>
    by_cases hk : e.1 = k <;> simp [updatePoints, hk, ih]

lemma dictGet_updatePoints_self (l : List (Int × Route)) (k : Int)
    (f : List MarkerPoint → List MarkerPoint) :
    dictGet (updatePoints l k f) k =
      (dictGet l k).map (fun r => { r with points := f r.points }) := by
  induction l with
  | nil => rfl
  | cons e rest ih =>
    by_cases hk : e.1 = k
    · simp [updatePoints, dictGet, hk]
    · simp [updatePoints, dictGet, hk, ih]

lemma dictGet_updatePoints_other (l : List (Int × Route)) (k : Int)
    (f : List MarkerPoint → List MarkerPoint) {k' : Int} (h : k' ≠ k) :
    dictGet (updatePoints l k f) k' = dictGet l k' := by
  induction l with
  | nil => rfl
  | cons e rest ih =>
    by_cases hk : e.1 = k
    · have hne : ¬ e.1 = k' := by rw [hk]; exact fun hh => h hh.symm
      have hkk' : ¬ k = k' := fun hh => h hh.symm
      simp [updatePoints, dictGet, hk, hne, hkk', ih]
    · by_cases hk' : e.1 = k'
      · simp [updatePoints, dictGet, hk, hk', h]
      · simp [updatePoints, dictGet, hk, hk', ih]

lemma updatePoints_of_not_mem {l : List (Int × Route)} {k : Int}
    (f : List MarkerPoint → List MarkerPoint) (h : k ∉ l.map Prod.fst) :
    updatePoints l k f = l := by
  induction l with
  | nil => rfl
  | cons e rest ih =>
    simp only [List.map_cons, List.mem_cons] at h
    push_neg at h
    have he : ¬ e.1 = k := fun hh => h.1 hh.symm
    simp only [updatePoints, he, if_false]
    rw [ih h.2]

lemma updatePoints_eq_self {l : List (Int × Route)} {k : Int}
    {f : List MarkerPoint → List MarkerPoint} (hn : (l.map Prod.fst).Nodup)
    (h : ∀ r, dictGet l k = some r → f r.points = r.points) :
    updatePoints l k f = l := by
  induction l with
  | nil => rfl
  | cons e rest ih =>
    simp only [List.map_cons, List.nodup_cons] at hn
    by_cases hk : e.1 = k
    · have he : f e.2.points = e.2.points := h e.2 (by simp [dictGet, hk])
      have hrest : updatePoints rest k f = rest :=
        updatePoints_of_not_mem f (by rw [← hk]; exact hn.1)
      have hhead : ({ e.2 with points := f e.2.points } : Route) = e.2 := by rw [he]
      simp only [updatePoints, if_pos hk, hhead, hrest]
    · have h' : ∀ r, dictGet rest k = some r → f r.points = r.points := fun r hr =>
        h r (by simp only [dictGet, hk, if_false]; exact hr)
      simp only [updatePoints, if_neg hk, ih hn.2 h']

lemma dictInsert_fresh {l : List (Int × Route)} {k : Int} (v : Route)
    (h : hasKey l k = false) : dictInsert l k v = l ++ [(k, v)] := by
  simp [dictInsert, h]

lemma dictGet_mapReplace {l : List (Int × Route)} {k : Int} (v : Route)
    (h : hasKey l k = true) :
    dictGet (l.map (fun e => if e.1 = k then (k, v) else e)) k = some v := by
  induction l with
  | nil => simp [hasKey, dictGet] at h
  | cons e rest ih =>
    by_cases hk : e.1 = k
    · simp [dictGet, hk]
    · simp only [hasKey, dictGet, hk, if_false] at h
      simp only [List.map_cons, hk, if_false, dictGet]
      exact ih h

lemma dictGet_dictInsert_self (l : List (Int × Route)) (k : Int) (v : Route) :
    dictGet (dictInsert l k v) k = some v := by
  cases hK : hasKey l k
  · rw [dictInsert_fresh v hK]
    have hn : dictGet l k = none := by
      cases hg : dictGet l k
      · rfl
      · simp [hasKey, hg] at hK
    rw [dictGet_append_none _ hn]
    simp [dictGet]
  · simp only [dictInsert, hK, if_true]
    exact dictGet_mapReplace v hK

lemma hasKey_append_left {l₁ : List (Int × Route)} {k : Int}
    (l₂ : List (Int × Route)) (h : hasKey l₁ k = true) :
    hasKey (l₁ ++ l₂) k = true := by
  obtain ⟨v, hv⟩ := Option.isSome_iff_exists.mp h
  simp [hasKey, dictGet_append_left l₂ hv]

lemma hasKey_append_elem (l : List (Int × Route)) (k : Int) (v : Route) :
    hasKey (l ++ [(k, v)]) k = true := by
  cases hg : dictGet l k
  · rw [hasKey, dictGet_append_none _ hg]
    simp [dictGet]
  · rw [hasKey, dictGet_append_left _ hg]
    rfl

lemma comboGet_mem : ∀ {l : List Int} {n : Nat} {a : Int},
    comboGet l n = some a → a ∈ l := by
  intro l
  induction l with
  | nil => intro n a h; simp [comboGet] at h
  | cons x rest ih =>
    intro n a h
    cases n with
    | zero =>
      simp only [comboGet] at h
      simp [Option.some_inj.mp h]
    | succ m =>
      simp only [comboGet] at h
      simp [ih h]

lemma storeInv_initState : StoreInv initState := by
  unfold StoreInv routeKeys
  refine ⟨by decide, by decide, by decide, by decide⟩

lemma storeInv_addRouteFromData (s : State) (rd : RouteData) (h : StoreInv s) :
    StoreInv (addRouteFromData s rd) := by
  obtain ⟨h1, h2, h3, h4⟩ := h
  have hfresh : dictGet s.routes s.nextRouteId = none := by
    apply dictGet_of_not_mem
    intro hm
    exact absurd (h2 _ hm) (lt_irrefl _)
  have hK : hasKey s.routes s.nextRouteId = false := by simp [hasKey, hfresh]
  refine ⟨?_, ?_, ?_, ?_⟩
  · show hasKey (dictInsert s.routes s.nextRouteId _) s.currentRouteId = true
    rw [dictInsert_fresh _ hK]
    exact hasKey_append_left _ h1
  · show ∀ k ∈ (dictInsert s.routes s.nextRouteId _).map Prod.fst, k < s.nextRouteId + 1
    rw [dictInsert_fresh _ hK]
    intro k hk
    simp only [List.map_append, List.mem_append, List.map_cons, List.map_nil,
      List.mem_singleton] at hk
    rcases hk with hk | hk
    · have := h2 k hk
      omega
    · omega
  · show ∀ d ∈ s.comboData ++ [s.nextRouteId],
        hasKey (dictInsert s.routes s.nextRouteId _) d = true
    rw [dictInsert_fresh _ hK]
    intro d hd
    rcases List.mem_append.mp hd with hd | hd
    · exact hasKey_append_left _ (h3 d hd)
    · rw [List.mem_singleton.mp hd]
      exact hasKey_append_elem _ _ _
  · show ((dictInsert s.routes s.nextRouteId _).map Prod.fst).Nodup
    rw [dictInsert_fresh _ hK]
    rw [List.map_append, List.nodup_append]
    refine ⟨h4, by simp, ?_⟩
    intro a ha hb
    simp only [List.map_cons, List.map_nil, List.mem_singleton] at hb
    have := h2 a ha
    omega

lemma storeInv_newRoute (s : State) (h : StoreInv s) : StoreInv (newRoute s) := by
  obtain ⟨h1, h2, h3, h4⟩ := h
  have hfresh : dictGet s.routes s.nextRouteId = none := by
    apply dictGet_of_not_mem
    intro hm
    exact absurd (h2 _ hm) (lt_irrefl _)
  have hK : hasKey s.routes s.nextRouteId = false := by simp [hasKey, hfresh]
  refine ⟨?_, ?_, ?_, ?_⟩
  · show hasKey (dictInsert s.routes s.nextRouteId _) s.nextRouteId = true
    rw [dictInsert_fresh _ hK]
    exact hasKey_append_elem _ _ _
  · show ∀ k ∈ (dictInsert s.routes s.nextRouteId _).map Prod.fst, k < s.nextRouteId + 1
    rw [dictInsert_fresh _ hK]
    intro k hk
    simp only [List.map_append, List.mem_append, List.map_cons, List.map_nil,
      List.mem_singleton] at hk
    rcases hk with hk | hk
    · have := h2 k hk
      omega
    · omega
  · show ∀ d ∈ s.comboData ++ [s.nextRouteId],
        hasKey (dictInsert s.routes s.nextRouteId _) d = true
    rw [dictInsert_fresh _ hK]
    intro d hd
    rcases List.mem_append.mp hd with hd | hd
    · exact hasKey_append_left _ (h3 d hd)
    · rw [List.mem_singleton.mp hd]
      exact hasKey_append_elem _ _ _
  · show ((dictInsert s.routes s.nextRouteId _).map Prod.fst).Nodup
    rw [dictInsert_fresh _ hK]
    rw [List.map_append, List.nodup_append]
    refine ⟨h4, by simp, ?_⟩
    intro a ha hb
    simp only [List.map_cons, List.map_nil, List.mem_singleton] at hb
    have := h2 a ha
    omega

lemma storeInv_changeRoute (s : State) (i : Int) (h : StoreInv s) :
    StoreInv (changeRoute s i) := by
  cases hi : itemData s i with
  | none => simpa [changeRoute, hi] using h
  | some rid =>
    have hrid : rid ∈ s.comboData := by
      unfold itemData at hi
      split at hi
      · exact comboGet_mem hi
      · exact absurd hi (by simp)
    obtain ⟨h1, h2, h3, h4⟩ := h
    simp only [changeRoute, hi]
    exact ⟨h3 rid hrid, h2, h3, h4⟩

lemma storeInv_updatePoints (s : State) (k : Int)
    (f : List MarkerPoint → List MarkerPoint) (h : StoreInv s) :
    StoreInv { s with routes := updatePoints s.routes k f } := by
  obtain ⟨h1, h2, h3, h4⟩ := h
  have hkeys : (updatePoints s.routes k f).map Prod.fst = s.routes.map Prod.fst :=
    updatePoints_keys s.routes k f
  have hhk : ∀ k', hasKey (updatePoints s.routes k f) k' = hasKey s.routes k' := by
    intro k'
    apply Bool.eq_iff_iff.mpr
    rw [hasKey_iff_mem, hasKey_iff_mem, hkeys]
  refine ⟨?_, ?_, ?_, ?_⟩
  · show hasKey (updatePoints s.routes k f) s.currentRouteId = true
    rw [hhk]
    exact h1
  · show ∀ k' ∈ (updatePoints s.routes k f).map Prod.fst, k' < s.nextRouteId
    rw [hkeys]
    exact h2
  · intro d hd
    show hasKey (updatePoints s.routes k f) d = true
    rw [hhk]
    exact h3 d hd
  · show ((updatePoints s.routes k f).map Prod.fst).Nodup
    rw [hkeys]
    exact h4

lemma storeInv_onPointAdded (s : State) (lat lng : Rat) (mid rid : Int)
    (h : StoreInv s) : StoreInv (onPointAdded s lat lng mid rid) := by
  simp only [onPointAdded]
  exact storeInv_updatePoints s _ _ h

lemma storeInv_onMarkerMoved (s : State) (lat lng : Rat) (mid rid : Int)
    (h : StoreInv s) : StoreInv (onMarkerMoved s lat lng mid rid) := by
  unfold onMarkerMoved
  split
  · exact storeInv_updatePoints s _ _ h
  · exact h

lemma storeInv_clearCurrentRoute (s : State) (h : StoreInv s) :
    StoreInv (clearCurrentRoute s) := by
  simp only [clearCurrentRoute]
  exact storeInv_updatePoints s _ _ h

lemma storeInv_foldl (rs : List RouteData) :
    ∀ s, StoreInv s → StoreInv (rs.foldl addRouteFromData s) := by
  induction rs with
  | nil => intro s h; exact h
  | cons rd rest ih =>
    intro s h
    exact ih _ (storeInv_addRouteFromData s rd h)

lemma storeInv_load (s : State) (v : YamlValue) (h : StoreInv s) :
    StoreInv (loadYamlContent s v).1 := by
  cases v with
  | vnull => exact h
  | vnum n => exact h
  | vdoc d =>
    obtain ⟨dr, dg⟩ := d
    cases dr with
    | some rs =>
      simp only [loadYamlContent]
      exact storeInv_foldl rs s h
    | none =>
      cases dg with
      | some pts =>
        simp only [loadYamlContent]
        exact storeInv_addRouteFromData s _ h
      | none => exact h

lemma storeInv_step {s s' : State} (h : StoreInv s) (hs : Step s s') : StoreInv s' := by
  cases hs with
  | newR => exact storeInv_newRoute s h
  | change i => exact storeInv_changeRoute s i h
  | ptAdded lat lng mid rid => exact storeInv_onPointAdded s lat lng mid rid h
  | moved lat lng mid rid => exact storeInv_onMarkerMoved s lat lng mid rid h
  | clearCur => exact storeInv_clearCurrentRoute s h
  | clearA => exact storeInv_initState
  | load v => exact storeInv_load s v h

lemma storeInv_reachable {s : State} (h : Reachable s) : StoreInv s := by
  induction h with
  | start => exact storeInv_initState
  | step _ hs ih => exact storeInv_step ih hs

lemma updFirst_spec (mid : Int) (lat lng : Rat) (pts : List MarkerPoint) :
    ((∀ p ∈ pts, ¬ p.mid = mid) ∧ updFirst mid lat lng pts = pts)
    ∨ (∃ pre p post, pts = pre ++ p :: post ∧ (∀ q ∈ pre, ¬ q.mid = mid) ∧ p.mid = mid ∧
        updFirst mid lat lng pts = pre ++ { mid := mid, lat := lat, lng := lng } :: post) := by
  induction pts with
  | nil => left; exact ⟨by simp, rfl⟩
  | cons p rest ih =>
    by_cases hp : p.mid = mid
    · right
      refine ⟨[], p, rest, by simp, by simp, hp, ?_⟩
      simp [updFirst, hp]
    · rcases ih with ⟨hall, hupd⟩ | ⟨pre, q, post, he, hpre, hq, hu⟩
      · left
        constructor
        · intro x hx
          rcases List.mem_cons.mp hx with hx | hx
          · rw [hx]; exact hp
          · exact hall x hx
        · simp [updFirst, hp, hupd]
      · right
        refine ⟨p :: pre, q, post, by simp [he], ?_, hq, ?_⟩
        · intro x hx
          rcases List.mem_cons.mp hx with hx | hx
          · rw [hx]; exact hp
          · exact hpre x hx
        · simp [updFirst, hp, hu]

lemma addPoints_mids (pts : List PointData) :
    ∀ acc : List MarkerPoint,
      acc.map MarkerPoint.mid = (List.range acc.length).map Int.ofNat →
      (addPointsFromData pts acc).map MarkerPoint.mid =
        (List.range (addPointsFromData pts acc).length).map Int.ofNat := by
  induction pts with
  | nil => intro acc h; exact h
  | cons p rest ih =>
    intro acc h
    rw [addPointsFromData]
    split
    · apply ih
      simp [List.map_append, h, List.length_append, List.range_succ]
    · exact ih acc h

/-- C1, counterexample: the claim says the store assigns
`marker_id = len(route.points)` also for inbound `PointAdded` events, but
`onPointAdded` stores the event-supplied marker id verbatim: one event with
marker id 7 on the fresh default route stores id 7, not 0. -/
theorem claim_c1_counterexample :
    (dictGet (onPointAdded initState 1 2 7 0).routes 0).map
        (fun r => r.points.map MarkerPoint.mid) = some [7]
    ∧ ¬ (dictGet (onPointAdded initState 1 2 7 0).routes 0).map
        (fun r => r.points.map MarkerPoint.mid) = some [0] := by
  decide

/-- C1, amended: the import path (`addRouteFromData`) assigns
`marker_id = len(points)` at each insertion, so the created route's marker ids
are exactly `0, 1, 2, …` in order; the `PointAdded` event path appends a point
carrying the event's marker id unchanged (to the named route, else the active
route). -/
theorem claim_c1_amended (s : State) (rd : RouteData) (lat lng : Rat) (mid rid : Int)
    (h : hasKey s.routes s.currentRouteId = true) :
    (∃ r, dictGet (addRouteFromData s rd).routes s.nextRouteId = some r ∧
        r.points.map MarkerPoint.mid = (List.range r.points.length).map Int.ofNat)
    ∧ (∃ r r',
        dictGet s.routes (if hasKey s.routes rid then rid else s.currentRouteId) = some r ∧
        dictGet (onPointAdded s lat lng mid rid).routes
          (if hasKey s.routes rid then rid else s.currentRouteId) = some r' ∧
        r'.points = r.points ++ [{ mid := mid, lat := lat, lng := lng }]) := by
  constructor
  · exact ⟨_, dictGet_dictInsert_self _ _ _, addPoints_mids _ [] rfl⟩
  · by_cases hk : hasKey s.routes rid = true
    · obtain ⟨r, hr⟩ := Option.isSome_iff_exists.mp hk
      refine ⟨r, { r with points := r.points ++ [{ mid := mid, lat := lat, lng := lng }] },
        ?_, ?_, rfl⟩
      · rw [if_pos hk]
        exact hr
      · simp only [onPointAdded]
        rw [if_pos hk, dictGet_updatePoints_self, hr]
        rfl
    · have hkf : hasKey s.routes rid = false := by
        cases hb : hasKey s.routes rid
        · rfl
        · exact absurd hb hk
      obtain ⟨r, hr⟩ := Option.isSome_iff_exists.mp h
      refine ⟨r, { r with points := r.points ++ [{ mid := mid, lat := lat, lng := lng }] },
        ?_, ?_, rfl⟩
      · rw [if_neg hk]
        exact hr
      · simp only [onPointAdded]
        rw [if_neg hk, dictGet_updatePoints_self, hr]
        rfl

/-- C1, witness for the amended theorem at a concrete input. -/
theorem claim_c1_amended_witness :
    hasKey initState.routes initState.currentRouteId = true
    ∧ ((∃ r, dictGet (addRouteFromData initState
          { id := none, color := none,
            points := some [{ lat := some 5, lon := some 6, lng := none }],
            global_route := none }).routes initState.nextRouteId = some r ∧
          r.points.map MarkerPoint.mid = (List.range r.points.length).map Int.ofNat)
       ∧ (∃ r r',
          dictGet initState.routes
            (if hasKey initState.routes 0 then 0 else initState.currentRouteId) = some r ∧
          dictGet (onPointAdded initState 1 2 7 0).routes
            (if hasKey initState.routes 0 then 0 else initState.currentRouteId) = some r' ∧
          r'.points = r.points ++ [{ mid := 7, lat := 1, lng := 2 }])) :=
  ⟨by decide, claim_c1_amended initState
    { id := none, color := none,
      points := some [{ lat := some 5, lon := some 6, lng := none }],
      global_route := none } 1 2 7 0 (by decide)⟩

/-- C2, code bug at a concrete input: a collection whose route 0 holds the
single point `(0, 1, 0)` (longitude `0.0`) exports that point as
`{lat: 1, lon: 0}`, and re-importing the exported document produces a route
with no points at all, because `point.get("lon") or point.get("lng")` treats
the present-but-falsy `lon == 0.0` as missing.  The round-trip law of the
claim demands the same point coordinates in the same order. -/
theorem claim_c2_roundtrip_bug :
    (dictGet (onPointAdded initState 1 0 0 0).routes 0).map (fun r => r.points.length) = some 1
    ∧ (loadYamlContent initState
        (.vdoc (saveYamlDoc (onPointAdded initState 1 0 0 0)))).1 =
      { routes := [(0, { id := 0, color := "red", points := [] }),
                   (1, { id := 1, color := "red", points := [] })],
        currentRouteId := 0, nextRouteId := 2, comboData := [0, 1] } := by
  decide

/-- C3, counterexample: no store operation raises `NotFoundError`.
`changeRoute` with an index that names no route (item data `None`) returns
normally without touching the state, so "raises if and only if the referenced
route id is unknown" is false. -/
theorem claim_c3_counterexample :
    ¬ (∀ (s : State) (i : Int),
        (∃ e, changeRouteE s i = Except.error e) ↔
          ¬ ∃ rid, itemData s i = some rid ∧ hasKey s.routes rid = true) := by
  intro hall
  have h1 : ¬ ∃ rid, itemData initState 5 = some rid ∧ hasKey initState.routes rid = true := by
    rintro ⟨rid, hr, -⟩
    have hnone : itemData initState 5 = none := rfl
    rw [hnone] at hr
    exact Option.noConfusion hr
  obtain ⟨e, he⟩ := (hall initState 5).mpr h1
  have hok : changeRouteE initState 5 = Except.ok initState := rfl
  rw [hok] at he
  exact Except.noConfusion he

/-- C3, amended: `changeRoute(index)` never raises; when the combo item at
`index` carries a route id it sets the active route to that id and changes
nothing else, and when the item data is `None` it is a silent no-op. -/
theorem claim_c3_amended (s : State) (i : Int) :
    (∃ rid, itemData s i = some rid ∧
        changeRouteE s i = Except.ok { s with currentRouteId := rid })
    ∨ (itemData s i = none ∧ changeRouteE s i = Except.ok s) := by
  cases h : itemData s i with
  | some rid =>
    left
    refine ⟨rid, rfl, ?_⟩
    unfold changeRouteE
    rw [h]
  | none =>
    right
    refine ⟨rfl, ?_⟩
    unfold changeRouteE
    rw [h]

/-- C4, code bug at a concrete input: a point record whose `lon` field is
present with value `0.0` and that has no `lng` field is skipped (first
conjunct), and when both are present the falsy `lon == 0.0` is bypassed in
favour of `lng` (second conjunct), contradicting "longitude is taken from
`lon` whenever `lon` is present" and "0.0 in a present field is imported".
A zero latitude, by contrast, is imported (third conjunct). -/
theorem claim_c4_lon_zero_bug :
    addPointsFromData [{ lat := some 1, lon := some 0, lng := none }] [] = []
    ∧ addPointsFromData [{ lat := some 1, lon := some 0, lng := some 7 }] []
        = [{ mid := 0, lat := 1, lng := 7 }]
    ∧ addPointsFromData [{ lat := some 0, lon := some 6, lng := none }] []
        = [{ mid := 0, lat := 0, lng := 6 }] := by
  decide

/-- C5: on every state reachable from construction through the store
operations (`newRoute`, `changeRoute`, `onPointAdded`, `onMarkerMoved`,
`clearCurrentRoute`, `clearAll`, `loadYamlContent`), the active route id is a
key of `routes`, and `nextRouteId` strictly exceeds every route id present
(routes are only ever removed by the full reset, so the ids present are the
ids ever allocated since the last reset). -/
theorem claim_c5_invariant (s : State) (h : Reachable s) :
    hasKey s.routes s.currentRouteId = true ∧ ∀ k ∈ routeKeys s, k < s.nextRouteId := by
  obtain ⟨h1, h2, -, -⟩ := storeInv_reachable h
  exact ⟨h1, h2⟩

/-- C5, witness: the invariant evaluated at the initial state. -/
theorem claim_c5_invariant_witness :
    Reachable initState
    ∧ (hasKey initState.routes initState.currentRouteId = true
        ∧ ∀ k ∈ routeKeys initState, k < initState.nextRouteId) :=
  ⟨Reachable.start, claim_c5_invariant initState Reachable.start⟩

/-- C6: `addRouteFromData` never reads the record's `id` field (the result is
identical for any value of it), increments the allocator by exactly one, and
keys the new route by the old `nextRouteId`, which is also stored as the
route's own id; concretely, importing
`{routes: [{id: 99, color: "blue", points: [{lat: 5, lon: 6}]}]}` into a
collection whose allocator is at 3 creates route 3 (not 99) with color "blue"
and point `(0, 5, 6)`, leaving the allocator at 4. -/
theorem claim_c6_import_ignores_id (s : State) (rd : RouteData) (x : Option Int) :
    addRouteFromData s rd = addRouteFromData s { rd with id := x }
    ∧ (addRouteFromData s rd).nextRouteId = s.nextRouteId + 1
    ∧ (dictGet (addRouteFromData s rd).routes s.nextRouteId).map Route.id = some s.nextRouteId
    ∧ (loadYamlContent (newRoute (newRoute initState))
        (.vdoc { routes := some [{ id := some 99, color := some "blue",
                                   points := some [{ lat := some 5, lon := some 6, lng := none }],
                                   global_route := none }], global_route := none })).1 =
      { routes := [(0, { id := 0, color := "red", points := [] }),
                   (1, { id := 1, color := "blue", points := [] }),
                   (2, { id := 2, color := "green", points := [] }),
                   (3, { id := 3, color := "blue", points := [{ mid := 0, lat := 5, lng := 6 }] })],
        currentRouteId := 2, nextRouteId := 4, comboData := [0, 1, 2, 3] } := by
  refine ⟨rfl, rfl, ?_, by decide⟩
  have hd := dictGet_dictInsert_self s.routes s.nextRouteId
    { id := s.nextRouteId, color := rd.color.getD (colorFor s.nextRouteId),
      points := addPointsFromData (rd.points.getD (rd.global_route.getD [])) [] }
  show (dictGet (addRouteFromData s rd).routes s.nextRouteId).map Route.id = some s.nextRouteId
  rw [show (addRouteFromData s rd).routes = dictInsert s.routes s.nextRouteId
    { id := s.nextRouteId, color := rd.color.getD (colorFor s.nextRouteId),
      points := addPointsFromData (rd.points.getD (rd.global_route.getD [])) [] } from rfl]
  rw [hd]
  rfl

/-- C7: importing a document whose only recognized top-level key is
`global_route` appends exactly one new route, keyed and identified by the
current allocator value, colored `palette[id % len(palette)]`, holding the
listed points imported in order with fresh sequential marker ids; nothing
else in the collection changes and the allocator advances by one. -/
theorem claim_c7_legacy_import (s : State) (pts : List PointData)
    (h : hasKey s.routes s.nextRouteId = false) :
    loadYamlContent s (.vdoc { routes := none, global_route := some pts }) =
      ({ s with
          routes := s.routes ++ [(s.nextRouteId,
            { id := s.nextRouteId, color := colorFor s.nextRouteId,
              points := addPointsFromData pts [] })],
          nextRouteId := s.nextRouteId + 1,
          comboData := s.comboData ++ [s.nextRouteId] }, LoadOutcome.ok) := by
  simp only [loadYamlContent, addRouteFromData, Option.getD_some]
  rw [dictInsert_fresh _ h]

/-- C7, witness: the legacy document of the claim,
`{global_route: [{lat: 1, lon: 2}, {lat: 3, lng: 4}]}`, imported into the
initial state, yields one new route with exactly the points `(0, 1, 2)` and
`(1, 3, 4)` (checking both the `lon`/`lng` alias resolution and the wrapper
promotion). -/
theorem claim_c7_legacy_import_witness :
    hasKey initState.routes initState.nextRouteId = false
    ∧ loadYamlContent initState
        (.vdoc { routes := none,
                 global_route := some [{ lat := some 1, lon := some 2, lng := none },
                                       { lat := some 3, lon := none, lng := some 4 }] }) =
      ({ routes := [(0, { id := 0, color := "red", points := [] }),
                    (1, { id := 1, color := "blue",
                          points := [{ mid := 0, lat := 1, lng := 2 },
                                     { mid := 1, lat := 3, lng := 4 }] })],
         currentRouteId := 0, nextRouteId := 2, comboData := [0, 1] }, LoadOutcome.ok) :=
  ⟨by decide,
    (claim_c7_legacy_import initState
      [{ lat := some 1, lon := some 2, lng := none },
       { lat := some 3, lon := none, lng := some 4 }] (by decide)).trans (by decide)⟩

/-- C8: a parsed document carrying neither a `routes` key nor a
`global_route` key makes `loadYamlContent` report the "Invalid YAML format"
parse failure and leave the state exactly as it was. -/
theorem claim_c8_invalid_format (s : State) (d : YamlDoc)
    (h1 : d.routes = none) (h2 : d.global_route = none) :
    loadYamlContent s (.vdoc d) = (s, LoadOutcome.invalidFormat) := by
  obtain ⟨dr, dg⟩ := d
  simp only at h1 h2
  subst h1
  subst h2
  rfl

/-- C8, witness: the document `{"foo": []}` (no recognized key) at the
initial state. -/
theorem claim_c8_invalid_format_witness :
    ({ routes := none, global_route := none } : YamlDoc).routes = none
    ∧ ({ routes := none, global_route := none } : YamlDoc).global_route = none
    ∧ loadYamlContent initState (.vdoc { routes := none, global_route := none }) =
        (initState, LoadOutcome.invalidFormat) :=
  ⟨rfl, rfl, claim_c8_invalid_format initState { routes := none, global_route := none } rfl rfl⟩

/-- C9: `onMarkerMoved` on a state with distinct route keys is a strict no-op
when the route id is unknown, or when the route exists but holds no point
with the given marker id; otherwise it rewrites exactly the coordinates of
the first matching point, preserving that point's marker id and position,
the point count and every other point, every other route, and the
`currentRouteId`/`nextRouteId`/combo fields. -/
theorem claim_c9_move_point (s : State) (lat lng : Rat) (mid rid : Int)
    (hn : (routeKeys s).Nodup) :
    (hasKey s.routes rid = false ∧ onMarkerMoved s lat lng mid rid = s)
    ∨ (∃ r, dictGet s.routes rid = some r ∧
        (((∀ p ∈ r.points, ¬ p.mid = mid) ∧ onMarkerMoved s lat lng mid rid = s)
         ∨ (∃ pre p post,
             r.points = pre ++ p :: post
             ∧ (∀ q ∈ pre, ¬ q.mid = mid)
             ∧ p.mid = mid
             ∧ (onMarkerMoved s lat lng mid rid).currentRouteId = s.currentRouteId
             ∧ (onMarkerMoved s lat lng mid rid).nextRouteId = s.nextRouteId
             ∧ (onMarkerMoved s lat lng mid rid).comboData = s.comboData
             ∧ (∀ k, ¬ k = rid →
                 dictGet (onMarkerMoved s lat lng mid rid).routes k = dictGet s.routes k)
             ∧ dictGet (onMarkerMoved s lat lng mid rid).routes rid =
                 some { id := r.id, color := r.color,
                        points := pre ++ { mid := mid, lat := lat, lng := lng } :: post }))) := by
  by_cases hk : hasKey s.routes rid = true
  · right
    obtain ⟨r, hr⟩ := Option.isSome_iff_exists.mp hk
    refine ⟨r, hr, ?_⟩
    have hOn : onMarkerMoved s lat lng mid rid =
        { s with routes := updatePoints s.routes rid (updFirst mid lat lng) } := by
      unfold onMarkerMoved
      rw [if_pos hk]
    rcases updFirst_spec mid lat lng r.points with ⟨hall, hupd⟩ | ⟨pre, p, post, he, hpre, hp, hu⟩
    · left
      refine ⟨hall, ?_⟩
      rw [hOn]
      have heq : updatePoints s.routes rid (updFirst mid lat lng) = s.routes := by
        apply updatePoints_eq_self hn
        intro r' hr'
        rw [hr] at hr'
        injection hr' with hh
        rw [← hh]
        exact hupd
      rw [heq]
    · right
      refine ⟨pre, p, post, he, hpre, hp, ?_, ?_, ?_, ?_, ?_⟩
      · rw [hOn]
      · rw [hOn]
      · rw [hOn]
      · intro k hkr
        rw [hOn]
        exact dictGet_updatePoints_other _ _ _ hkr
      · rw [hOn]
        show dictGet (updatePoints s.routes rid (updFirst mid lat lng)) rid
          = some { id := r.id, color := r.color,
                   points := pre ++ { mid := mid, lat := lat, lng := lng } :: post }
        rw [dictGet_updatePoints_self, hr]
        simp [hu]
  · left
    have hkf : hasKey s.routes rid = false := by
      cases hb : hasKey s.routes rid
      · rfl
      · exact absurd hb hk
    refine ⟨hkf, ?_⟩
    unfold onMarkerMoved
    rw [if_neg hk]

/-- C9, witness: a state whose route 0 holds the single point `(5, 1, 2)`,
moving marker 5 of route 0 to `(8, 9)`. -/
theorem claim_c9_move_point_witness :
    (routeKeys (onPointAdded initState 1 2 5 0)).Nodup
    ∧ ((hasKey (onPointAdded initState 1 2 5 0).routes 0 = false
          ∧ onMarkerMoved (onPointAdded initState 1 2 5 0) 8 9 5 0 = onPointAdded initState 1 2 5 0)
       ∨ (∃ r, dictGet (onPointAdded initState 1 2 5 0).routes 0 = some r ∧
           (((∀ p ∈ r.points, ¬ p.mid = 5)
               ∧ onMarkerMoved (onPointAdded initState 1 2 5 0) 8 9 5 0 = onPointAdded initState 1 2 5 0)
            ∨ (∃ pre p post,
                r.points = pre ++ p :: post
                ∧ (∀ q ∈ pre, ¬ q.mid = 5)
                ∧ p.mid = 5
                ∧ (onMarkerMoved (onPointAdded initState 1 2 5 0) 8 9 5 0).currentRouteId
                    = (onPointAdded initState 1 2 5 0).currentRouteId
                ∧ (onMarkerMoved (onPointAdded initState 1 2 5 0) 8 9 5 0).nextRouteId
                    = (onPointAdded initState 1 2 5 0).nextRouteId
                ∧ (onMarkerMoved (onPointAdded initState 1 2 5 0) 8 9 5 0).comboData
                    = (onPointAdded initState 1 2 5 0).comboData
                ∧ (∀ k, ¬ k = 0 →
                    dictGet (onMarkerMoved (onPointAdded initState 1 2 5 0) 8 9 5 0).routes k
                      = dictGet (onPointAdded initState 1 2 5 0).routes k)
                ∧ dictGet (onMarkerMoved (onPointAdded initState 1 2 5 0) 8 9 5 0).routes 0 =
                    some { id := r.id, color := r.color,
                           points := pre ++ { mid := 5, lat := 8, lng := 9 } :: post })))) :=
  ⟨by decide, claim_c9_move_point (onPointAdded initState 1 2 5 0) 8 9 5 0 (by decide)⟩

/-- C10: for syntactically valid YAML that parses to `None` (e.g. the empty
document) or to a number, `loadYamlContent` terminates with the uncaught
`TypeError` from the top-level key test — not through the reported
"Invalid YAML format" branch — and the state is left unmodified. -/
theorem claim_c10_uncaught_typeerror (s : State) (n : Int) :
    loadYamlContent s YamlValue.vnull = (s, LoadOutcome.typeError)
    ∧ loadYamlContent s (YamlValue.vnum n) = (s, LoadOutcome.typeError)
    ∧ LoadOutcome.typeError ≠ LoadOutcome.invalidFormat :=
  ⟨rfl, rfl, by decide⟩
